import Mathlib

set_option maxRecDepth 100000

/-!
Shallow embedding of the rulegen-framework core (src/core/services.py and
src/core/prompt_manager.py) and proofs about the spec's claims.

Strings are modelled as `List Char`.  Python regular-expression scans
(`re.findall`, `re.search`) are modelled by explicit character scanners that
follow the concrete patterns appearing in the source.  Python `list(set(xs))`
is modelled by the deterministic duplicate-removal `List.dedup` (CPython's set
iteration order is hash-dependent; only membership, count and nodup-ness of
the result are relied upon by the claims).
-/

abbrev Chars := List Char

/-- Python `\w` on ASCII input: letters, digits and underscore. -/
def isWordChar (c : Char) : Bool := c.isAlphanum || c == '_'

/-- The character class `[-\w.]` of the URL pattern in
`SpamGenieService._extract_urls` (src/core/services.py:145). -/
def isClassChar (c : Char) : Bool := c == '-' || c == '.' || isWordChar c

/-- Python `[\da-fA-F]`. -/
def isHexDigitCh (c : Char) : Bool :=
  c.isDigit || ( 'a' ≤ c && c ≤ 'f' ) || ( 'A' ≤ c && c ≤ 'F' )

/-- Python `\s` on ASCII input. -/
def isPySpace (c : Char) : Bool :=
  c == ' ' || c == '\t' || c == '\n' || c == '\r' || c == '\x0b' || c == '\x0c'

/-- The character class `[^\s<>"]` of the URL pattern in
`PromptManager.format_email_data` (src/core/prompt_manager.py:115). -/
def wideUrlChar (c : Char) : Bool :=
  !(isPySpace c || c == '<' || c == '>' || c == '\"')

/-- Match a literal prefix; returns the remainder on success. -/
def stripPrefixCh : Chars → Chars → Option Chars
  | [], s => some s
  | _ :: _, [] => none
  | p :: ps, c :: cs => if p = c then stripPrefixCh ps cs else none

def httpScheme : Chars := ("http://").data

def httpsScheme : Chars := ("https://").data

/-- Greedy match of `(?:[-\w.]|(?:%[\da-fA-F]{2}))+` units; returns the
consumed characters and the rest.  Alternation is deterministic because `%`
is not in the plain character class. -/
def takeUnits : Chars → Chars × Chars
  | [] => ([], [])
  | c :: rest =>
    if isClassChar c then
      (c :: (takeUnits rest).1, (takeUnits rest).2)
    else if c = '%' then
      match rest with
      | a :: b :: rest2 =>
        if isHexDigitCh a && isHexDigitCh b then
          (c :: a :: b :: (takeUnits rest2).1, (takeUnits rest2).2)
        else ([], c :: rest)
      | _ => ([], c :: rest)
    else ([], c :: rest)

/-- Attempt to match `https?://(?:[-\w.]|(?:%[\da-fA-F]{2}))+` at the start of
`s` (the pattern of `_extract_urls`); returns the match and the rest.
`https?` is greedy, so the `https://` literal is tried before `http://`. -/
def matchUrlAt (s : Chars) : Option (Chars × Chars) :=
  match stripPrefixCh httpsScheme s with
  | some b =>
    if (takeUnits b).1 = [] then none
    else some (httpsScheme ++ (takeUnits b).1, (takeUnits b).2)
  | none =>
    match stripPrefixCh httpScheme s with
    | some b =>
      if (takeUnits b).1 = [] then none
      else some (httpScheme ++ (takeUnits b).1, (takeUnits b).2)
    | none => none

/-- Attempt to match `https?://[^\s<>"]+` at the start of `s` (the pattern of
`format_email_data`). -/
def matchWideAt (s : Chars) : Option (Chars × Chars) :=
  match stripPrefixCh httpsScheme s with
  | some b =>
    if b.takeWhile wideUrlChar = [] then none
    else some (httpsScheme ++ b.takeWhile wideUrlChar, b.dropWhile wideUrlChar)
  | none =>
    match stripPrefixCh httpScheme s with
    | some b =>
      if b.takeWhile wideUrlChar = [] then none
      else some (httpScheme ++ b.takeWhile wideUrlChar, b.dropWhile wideUrlChar)
    | none => none

/-- `re.findall` for an anchored matcher `m`: scan left to right, emit
non-overlapping matches, advance one character where no match starts.
`fuel` bounds the recursion; one unit is spent per step, so `s.length`
suffices because every step consumes at least one character. -/
def findallW (m : Chars → Option (Chars × Chars)) : Nat → Chars → List Chars
  | 0, _ => []
  | _ + 1, [] => []
  | fuel + 1, c :: rest =>
    match m (c :: rest) with
    | some (u, r) => u :: findallW m fuel r
    | none => findallW m fuel rest

/-- `SpamGenieService._extract_urls` (src/core/services.py:142-146):
`list(set(re.findall(r"https?://(?:[-\w.]|(?:%[\da-fA-F]{2}))+", html)))`. -/
def extract_urls (html : Chars) : List Chars :=
  List.dedup (findallW matchUrlAt html.length html)

/-- The `re.findall(r'https?://[^\s<>"]+', html)` scan inside
`PromptManager.format_email_data` (src/core/prompt_manager.py:115). -/
def fmt_findall_urls (html : Chars) : List Chars :=
  findallW matchWideAt html.length html

/-- `s.count(sub) > 0`-style scan: does `pat` occur as a contiguous substring
of `s`? -/
def containsSub : Chars → Chars → Bool
  | [], pat => pat.isPrefixOf []
  | c :: s2, pat => pat.isPrefixOf (c :: s2) || containsSub s2 pat

/-- Python `str.replace`: replace every non-overlapping occurrence of `pat`,
scanning left to right.  `fuel` bounds the recursion; `s.length` suffices. -/
def pyReplace : Nat → Chars → Chars → Chars → Chars
  | 0, s, _, _ => s
  | fuel + 1, s, pat, rep =>
    if pat ≠ [] ∧ pat.isPrefixOf s = true then
      rep ++ pyReplace fuel (s.drop pat.length) pat rep
    else
      match s with
      | [] => []
      | c :: s2 => c :: pyReplace fuel s2 pat rep

def strReplace (s pat rep : Chars) : Chars := pyReplace s.length s pat rep

/-- Python `str.strip()` (ASCII whitespace). -/
def pyStrip (s : Chars) : Chars :=
  ((s.dropWhile isPySpace).reverse.dropWhile isPySpace).reverse

def isSentSep (c : Char) : Bool := c == '.' || c == '!' || c == '?'

/-- `re.split(r"[.!?]+", text)`: segments between runs of sentence
separators.  `fuel` bounds the recursion; `s.length` suffices. -/
def splitSentF : Nat → Chars → List Chars
  | 0, s => [s]
  | fuel + 1, s =>
    let seg := s.takeWhile (fun c => !(isSentSep c))
    let rest := s.dropWhile (fun c => !(isSentSep c))
    match rest with
    | [] => [seg]
    | _ :: rest2 => seg :: splitSentF fuel (rest2.dropWhile isSentSep)

/-- `SpamGenieService._extract_common_phrases` (src/core/services.py:148-153). -/
def extract_common_phrases (text : Chars) : List Chars :=
  (((splitSentF text.length text).map pyStrip).filter (fun s => s.length > 10)).take 5

/-- Scan all start positions of `s` for one where `test` fires (models
`re.search` used for a boolean presence check). -/
def scanFor (test : Chars → Bool) : Nat → Chars → Bool
  | 0, _ => false
  | _ + 1, [] => false
  | fuel + 1, c :: rest => test (c :: rest) || scanFor test fuel rest

/-- `re.search(r"<TAG.*?>", html)` presence: the literal opening, then a
closing angle bracket on the same line (`.` does not match newlines). -/
def tagCloseTest (opn : Chars) (s : Chars) : Bool :=
  match stripPrefixCh opn s with
  | some r => (r.takeWhile (fun c => c != '\n')).contains '>'
  | none => false

/-- `re.search(r"<a.*?href=.*?>", html)` presence. -/
def hrefCloseTest (s : Chars) : Bool :=
  match stripPrefixCh (("<a").data) s with
  | some r =>
    let line := r.takeWhile (fun c => c != '\n')
    scanFor
      (fun t =>
        match stripPrefixCh (("href=").data) t with
        | some r2 => r2.contains '>'
        | none => false)
      line.length line
  | none => false

/-- `re.search(r"display:\s*none|visibility:\s*hidden", html)` presence
(`\s` does match newlines). -/
def hiddenTest (s : Chars) : Bool :=
  (match stripPrefixCh (("display:").data) s with
   | some r => (("none").data).isPrefixOf (r.dropWhile isPySpace)
   | none => false)
  ||
  (match stripPrefixCh (("visibility:").data) s with
   | some r => (("hidden").data).isPrefixOf (r.dropWhile isPySpace)
   | none => false)

structure HtmlFlags where
  has_images : Bool
  has_links : Bool
  has_tables : Bool
  has_hidden_content : Bool
deriving DecidableEq

/-- `SpamGenieService._analyze_html_formatting` (src/core/services.py:155-165). -/
def analyze_html_formatting (html : Chars) : HtmlFlags :=
  { has_images := scanFor (tagCloseTest (("<img").data)) html.length html
    has_links := scanFor hrefCloseTest html.length html
    has_tables := scanFor (tagCloseTest (("<table").data)) html.length html
    has_hidden_content := scanFor hiddenTest html.length html }

/-- Anchored match of `https?://([^/]+)`; returns the captured authority. -/
def matchDomainAt (s : Chars) : Option Chars :=
  match stripPrefixCh httpsScheme s with
  | some b =>
    let u := b.takeWhile (fun c => c != '/')
    if u = [] then none else some u
  | none =>
    match stripPrefixCh httpScheme s with
    | some b =>
      let u := b.takeWhile (fun c => c != '/')
      if u = [] then none else some u
    | none => none

def searchDomain : Nat → Chars → Option Chars
  | 0, _ => none
  | _ + 1, [] => none
  | fuel + 1, c :: rest =>
    match matchDomainAt (c :: rest) with
    | some d => some d
    | none => searchDomain fuel rest

/-- `SpamGenieService._extract_domains_from_urls` (src/core/services.py:203-219). -/
def extract_domains_from_urls (urls : List Chars) : List Chars :=
  List.dedup (urls.filterMap (fun u => searchDomain u.length u))

structure BodyPatterns where
  common_phrases : List Chars
  url_patterns : List Chars
  formatting_patterns : List HtmlFlags
deriving DecidableEq

structure Patterns where
  header_patterns : List (Chars × List Chars)
  body_patterns : BodyPatterns
deriving DecidableEq

structure Extracted where
  urls : List Chars
  domains : List Chars
  html_analysis : HtmlFlags
deriving DecidableEq

/-- One element of the `analysis_data` list handed to the prompt builder:
a dict with `headers`, `body` (plain/html), `is_spam`, and optionally
`spam_patterns` / `ham_patterns` / `extracted` keys (an absent or empty
pattern dict is modelled as `none`). -/
structure AnalysisEntry where
  headers : List (Chars × Chars)
  body_plain : Chars
  body_html : Chars
  is_spam : Bool
  spam_patterns : Option Patterns
  ham_patterns : Option Patterns
  extracted : Option Extracted
deriving DecidableEq

/-- Python-dict update used for `header_patterns`: keys keep first-seen
order, values are appended. -/
def assocAppend (d : List (Chars × List Chars)) (k : Chars) (v : Chars) :
    List (Chars × List Chars) :=
  match d with
  | [] => [(k, [v])]
  | (k0, vs) :: rest =>
    if k0 = k then (k0, vs ++ [v]) :: rest else (k0, vs) :: assocAppend rest k v

/-- The header-analysis loop of `_extract_common_patterns`
(src/core/services.py:179-184). -/
def header_patterns_loop (analysis : List AnalysisEntry) :
    List (Chars × List Chars) :=
  analysis.foldl
    (fun d e => e.headers.foldl (fun d2 kv => assocAppend d2 kv.1 kv.2) d) []

/-- The body-analysis loop of `_extract_common_patterns`
(src/core/services.py:186-199); note the URL list is extended with the whole
per-sample `_extract_urls` result, with no cap. -/
def body_patterns_loop :
    List AnalysisEntry → List Chars × List Chars × List HtmlFlags →
    List Chars × List Chars × List HtmlFlags
  | [], acc => acc
  | e :: rest, (us, ps, fs) =>
    body_patterns_loop rest
      (us ++ extract_urls e.body_html,
       ps ++ extract_common_phrases e.body_plain,
       fs ++ (if e.body_html ≠ [] then [analyze_html_formatting e.body_html] else []))

/-- `SpamGenieService._extract_common_patterns` (src/core/services.py:167-201). -/
def extract_common_patterns (analysis : List AnalysisEntry) : Patterns :=
  let bp := body_patterns_loop analysis ([], [], [])
  { header_patterns := header_patterns_loop analysis
    body_patterns :=
      { common_phrases := bp.2.1
        url_patterns := bp.1
        formatting_patterns := bp.2.2 } }

/-- `SpamGenieService._enhance_analysis_data` (src/core/services.py:221-240). -/
def enhance_analysis_data (analysis : List AnalysisEntry) : List AnalysisEntry :=
  analysis.map (fun e =>
    let urls := extract_urls e.body_html
    { e with
      extracted :=
        some { urls := urls
               domains := extract_domains_from_urls urls
               html_analysis := analyze_html_formatting e.body_html } })

/-- Join a list of strings with a separator (Python `sep.join(xs)`). -/
def joinSep (sep : Chars) : List Chars → Chars
  | [] => []
  | [x] => x
  | x :: y :: xs => x ++ sep ++ joinSep sep (y :: xs)

def jsonEscapeChar (c : Char) : Chars :=
  if c = '\\' then [ '\\', '\\' ]
  else if c = '\"' then [ '\\', '\"' ]
  else if c = '\n' then [ '\\', 'n' ]
  else if c = '\t' then [ '\\', 't' ]
  else if c = '\r' then [ '\\', 'r' ]
  else [c]

def jsonStr (s : Chars) : Chars :=
  [ '\"' ] ++ (s.map jsonEscapeChar).flatten ++ [ '\"' ]

/-- `json.dumps(d, indent=2)` for a flat string-to-string dict. -/
def jsonDumps2 (d : List (Chars × Chars)) : Chars :=
  match d with
  | [] => ("\x7b\x7d").data
  | _ =>
    ("\x7b\n").data
    ++ joinSep ((",\n").data)
        (d.map (fun kv => ("  ").data ++ jsonStr kv.1 ++ (": ").data ++ jsonStr kv.2))
    ++ ("\n\x7d").data

/-- A single-quote character (as in Python `repr` of a plain string). -/
def sqc : Char := Char.ofNat 39

def reprEscapeChar (c : Char) : Chars :=
  if c = '\\' then [ '\\', '\\' ]
  else if c = sqc then [ '\\', sqc ]
  else if c = '\n' then [ '\\', 'n' ]
  else if c = '\t' then [ '\\', 't' ]
  else if c = '\r' then [ '\\', 'r' ]
  else [c]

def pyReprStr (s : Chars) : Chars :=
  [sqc] ++ (s.map reprEscapeChar).flatten ++ [sqc]

/-- Python `f"{xs}"` rendering of a list of strings (its `repr`). -/
def pyReprList (l : List Chars) : Chars :=
  [ '[' ] ++ joinSep ((", ").data) (l.map pyReprStr) ++ [ ']' ]

/-- Row of the `PromptTemplate` table (src/core/models.py:144-178). -/
structure PromptTemplate where
  id : Nat
  name : Chars
  template : Chars
  is_base : Bool
  is_module : Bool
  module_type : Chars
deriving DecidableEq

abbrev Store := List PromptTemplate

/-- Exceptions that can cross the modelled Django ORM boundary. -/
inductive PyErr where
  | doesNotExist
  | multipleObjectsReturned
  | keyError (k : Chars)
deriving DecidableEq

instance instDecEqExcept {ε α : Type} [DecidableEq ε] [DecidableEq α] :
    DecidableEq (Except ε α) := fun x y =>
  match x, y with
  | .error a, .error b =>
    if h : a = b then isTrue (by rw [h])
    else isFalse (by intro hh; injection hh with h2; exact h h2)
  | .ok a, .ok b =>
    if h : a = b then isTrue (by rw [h])
    else isFalse (by intro hh; injection hh with h2; exact h h2)
  | .error _, .ok _ => isFalse (by intro hh; cases hh)
  | .ok _, .error _ => isFalse (by intro hh; cases hh)

/-- Django `queryset.first()` with no ordering: the row with the least
primary key (leftmost among equals; pks are unique in practice). -/
def firstByPk : List PromptTemplate → Option PromptTemplate
  | [] => none
  | t :: ts =>
    match firstByPk ts with
    | none => some t
    | some u => if u.id < t.id then some u else some t

/-- Python truthiness of the optional `base_prompt_id` (`if base_prompt_id:`,
so an id of 0 is falsy). -/
def idTruthy : Option Nat → Bool
  | none => false
  | some i => i != 0

/-- `PromptManager.get_base_prompt` (src/core/prompt_manager.py:26-61).
With a truthy id, `objects.get(id=..., is_base=True)`; `DoesNotExist` is
caught (empty string), `MultipleObjectsReturned` is not.  Without an id,
`objects.filter(is_base=True).first()` (pk order). -/
def get_base_prompt (store : Store) (base_prompt_id : Option Nat) :
    Except PyErr Chars :=
  if idTruthy base_prompt_id then
    match store.filter (fun t => t.id == base_prompt_id.getD 0 && t.is_base) with
    | [] => .ok []
    | [t] => .ok t.template
    | _ => .error .multipleObjectsReturned
  else
    match firstByPk (store.filter (fun t => t.is_base)) with
    | some t => .ok t.template
    | none => .ok []

/-- `objects.get(is_module=True, module_type=m)`: `none` for `DoesNotExist`
(callers decide whether to catch it), error for multiple matches. -/
def objects_get_module (store : Store) (m : Chars) :
    Except PyErr (Option PromptTemplate) :=
  match store.filter (fun t => t.is_module && t.module_type == m) with
  | [] => .ok none
  | [t] => .ok (some t)
  | _ => .error .multipleObjectsReturned

/-- `PromptManager.get_module_prompt` (src/core/prompt_manager.py:63-80):
empty string when the module does not exist. -/
def get_module_prompt (store : Store) (m : Chars) : Except PyErr Chars :=
  match objects_get_module store m with
  | .error e => .error e
  | .ok none => .ok []
  | .ok (some t) => .ok t.template

/-- The base-template lookup repeated for metadata purposes
(src/core/prompt_manager.py:166-176); `DoesNotExist` is passed over. -/
def baseById (store : Store) (bid : Option Nat) :
    Except PyErr (Option PromptTemplate) :=
  match store.filter (fun t => t.id == bid.getD 0 && t.is_base) with
  | [] => .ok none
  | [t] => .ok (some t)
  | _ => .error .multipleObjectsReturned

/-- The part of `format_email_data`'s result dict that only exists when
`analysis_data` is non-empty (`urls`, `spam_patterns`, `ham_patterns`). -/
structure FmtExtra where
  urls : List Chars
  spam_patterns : Option Patterns
  ham_patterns : Option Patterns
deriving DecidableEq

structure FormattedData where
  headers : Chars
  body_plain : Chars
  body_html : Chars
  extra : Option FmtExtra
deriving DecidableEq

/-- `PromptManager.format_email_data` (src/core/prompt_manager.py:82-129). -/
def format_email_data : List AnalysisEntry → FormattedData
  | [] =>
    { headers := ("\x7b\x7d").data, body_plain := [], body_html := [], extra := none }
  | e :: rest =>
    let urls := (e :: rest).foldl
      (fun acc d => acc ++ (fmt_findall_urls d.body_html).take 10) []
    { headers := jsonDumps2 e.headers
      body_plain := e.body_plain.take 1000
      body_html := e.body_html.take 1000
      extra := some
        { urls := (List.dedup urls).take 10
          spam_patterns := e.spam_patterns
          ham_patterns := e.ham_patterns } }

structure ModuleRef where
  id : Nat
  name : Chars
  mtype : Chars
deriving DecidableEq

structure BasePromptRef where
  id : Option Nat
  name : Chars
deriving DecidableEq

/-- The `metadata` dict returned by `build_prompt`;
`has_spam_ham_analysis := none` models the key being absent (as in the
no-base-prompt early return). -/
structure Metadata where
  base_prompt : BasePromptRef
  modules : List ModuleRef
  email_sample_count : Nat
  has_spam_ham_analysis : Option Bool
deriving DecidableEq

structure BuildResult where
  prompt : Chars
  metadata : Metadata
deriving DecidableEq

/-- The f-string `email_body_content` (src/core/prompt_manager.py:184-199). -/
def emailBodyContent (fd : FormattedData) (urls : List Chars) : Chars :=
  ("\nPlain Text:\n```\n").data ++ fd.body_plain
  ++ ("\n```\n\nHTML Content:\n```\n").data ++ fd.body_html
  ++ ("\n```\n\nExtracted URLs:\n```\n").data
  ++ (if urls = [] then ("No URLs found").data else joinSep [ '\n' ] urls)
  ++ ("\n```\n").data

def spamHamHeader : Chars :=
  ("\n## Spam vs Ham Analysis\n\nThe following is an analysis of patterns found in spam and ham (non-spam) emails:\n\n### Patterns found in SPAM emails (to prioritize):\n").data

def hamHeader : Chars :=
  ("\n### Patterns found in HAM emails (to de-prioritize):\n").data

def spamHamGuidance : Chars :=
  ("\nIMPORTANT: When generating SpamAssassin rules,\nprioritize patterns unique to SPAM emails and avoid patterns that are common in HAM emails.\nThis differential approach will minimize false positives.\n").data

def headerPatternLines (hp : List (Chars × List Chars)) : Chars :=
  hp.foldl
    (fun acc kv =>
      acc ++ ("- ").data ++ kv.1 ++ (": ").data ++ pyReprList (kv.2.take 3) ++ [ '\n' ])
    []

def bulletLines (l : List Chars) : Chars :=
  l.foldl (fun acc x => acc ++ ("- ").data ++ x ++ [ '\n' ]) []

/-- The pattern rendering shared by the spam and the ham side of the
analysis block (src/core/prompt_manager.py:212-288); note the body-pattern
dict itself is always truthy, so only the inner lists are tested. -/
def patternsSection (po : Option Patterns) : Chars :=
  match po with
  | none => []
  | some p =>
    (if p.header_patterns ≠ [] then
       ("\nHeader patterns:\n").data ++ headerPatternLines p.header_patterns
     else [])
    ++ (if p.body_patterns.common_phrases ≠ [] then
          ("\nCommon phrases:\n").data ++ bulletLines (p.body_patterns.common_phrases.take 5)
        else [])
    ++ (if p.body_patterns.url_patterns ≠ [] then
          ("\nURL patterns:\n").data ++ bulletLines (p.body_patterns.url_patterns.take 5)
        else [])

def spamHamContent (ex : FmtExtra) : Chars :=
  spamHamHeader ++ patternsSection ex.spam_patterns
  ++ hamHeader ++ patternsSection ex.ham_patterns
  ++ spamHamGuidance

/-- The module loop of `build_prompt` (src/core/prompt_manager.py:300-318):
a missing module type yields an empty string and is skipped (as is a module
whose template is empty); an appended module is recorded in order. -/
def add_modules (store : Store) :
    List Chars → Chars → List ModuleRef → Except PyErr (Chars × List ModuleRef)
  | [], p, refs => .ok (p, refs)
  | m :: rest, p, refs =>
    match objects_get_module store m with
    | .error e => .error e
    | .ok none => add_modules store rest p refs
    | .ok (some t) =>
      if t.template = [] then add_modules store rest p refs
      else
        add_modules store rest (p ++ ("\n\n").data ++ t.template)
          (refs ++ [{ id := t.id, name := t.name, mtype := t.module_type }])

def reminderText : Chars :=
  ("\n\n## IMPORTANT REMINDER\n1. Use EXACTLY two underscores (__) prefix for all subrules\n2. Present each subrule in its own separate code block for easy copying\n3. Follow the exact format shown in the examples\n4. Group related subrules by type (headers, URI, body, etc.)\n5. Prioritize patterns unique to SPAM and avoid patterns common in HAM\n").data

/-- `PromptManager.build_prompt` (src/core/prompt_manager.py:131-348).
Notable faithful details: placeholder substitution uses Python
`str.replace` (all occurrences); with an empty `analysis_data` and a
resolvable base prompt, `formatted_data["urls"]` raises `KeyError`; the
spam-vs-ham block is appended whenever `analysis_data` is non-empty
(`format_email_data` then always includes the two pattern keys). -/
def build_prompt (store : Store) (analysis : List AnalysisEntry)
    (selected_modules : List Chars) (base_prompt_id : Option Nat) :
    Except PyErr BuildResult :=
  match get_base_prompt store base_prompt_id with
  | .error e => .error e
  | .ok prompt0 =>
    if prompt0 = [] then
      .ok { prompt := []
            metadata :=
              { base_prompt := { id := none, name := ("No Base Prompt Found").data }
                modules := []
                email_sample_count := analysis.length
                has_spam_ham_analysis := none } }
    else
      match (if idTruthy base_prompt_id then baseById store base_prompt_id
             else .ok (firstByPk (store.filter (fun t => t.is_base)))) with
      | .error e => .error e
      | .ok base_obj =>
        let fd := format_email_data analysis
        let p1 := strReplace prompt0 (("{HEADERS}").data) fd.headers
        match fd.extra with
        | none => .error (.keyError (("urls").data))
        | some ex =>
          let p2 := strReplace p1 (("{EMAIL_BODY}").data) (emailBodyContent fd ex.urls)
          let p3 := p2 ++ spamHamContent ex
          match add_modules store selected_modules p3 [] with
          | .error e => .error e
          | .ok (p4, refs) =>
            .ok { prompt := p4 ++ reminderText
                  metadata :=
                    { base_prompt :=
                        { id := base_obj.map (fun b => b.id)
                          name :=
                            match base_obj with
                            | some b => b.name
                            | none => ("Unknown Prompt").data }
                      modules := refs
                      email_sample_count := analysis.length
                      has_spam_ham_analysis := some true } }

def lowerStr (s : Chars) : Chars := s.map Char.toLower

/-- An email file, abstracted to its parsed view (the MIME parsing and file
reading of `parse_email` are outside the claims under verification). -/
structure EmailFile where
  headers : List (Chars × Chars)
  body_plain : Chars
  body_html : Chars
  file_name : Chars
  processed : Bool
deriving DecidableEq

structure EmailData where
  headers : List (Chars × Chars)
  body_plain : Chars
  body_html : Chars
  file_name : Chars
deriving DecidableEq

/-- `SpamGenieService.parse_email` (src/core/services.py:61-72), with file
reading and MIME decoding abstracted into the `EmailFile` record. -/
def parse_email (f : EmailFile) : EmailData :=
  { headers := f.headers, body_plain := f.body_plain
    body_html := f.body_html, file_name := f.file_name }

/-- `{**prompt_data["metadata"], "spam_count": len(email_files)}`
(src/core/services.py:297-300). -/
structure StoredMeta where
  meta : Metadata
  spam_count : Nat
deriving DecidableEq

/-- Row of the `RuleGeneration` table.  `prompt = []` models an unset/empty
prompt and `prompt_metadata = none` an empty metadata dict.  Modelled from
the spec for the fields missing from src/core/models.py: `error`,
`is_regeneration` and `feedback` are read and written by
`SpamGenieService.process_rule_generation` (src/core/services.py:424-491)
and by the status endpoint, but `models.py` in this snapshot does not
declare them; they are taken from the spec's GenerationJob data model. -/
structure RuleGen where
  id : Nat
  prompt : Chars
  prompt_modules : List Chars
  base_prompt_id : Option Nat
  prompt_metadata : Option StoredMeta
  rule : Option Chars
  error : Option Chars
  is_complete : Bool
  is_regeneration : Bool
  feedback : Chars
deriving DecidableEq

/-- `email_data["headers"].get(k, "")`. -/
def headerGet (hs : List (Chars × Chars)) (k : Chars) : Chars :=
  match hs.find? (fun kv => kv.1 == k) with
  | some kv => kv.2
  | none => []

/-- The `spam_analysis_data` list built by `generate_prompt`
(src/core/services.py:257-269): per email, the headers restricted to the
workspace's selected headers (missing ones as empty strings) plus the two
bodies. -/
def spamAnalysisData (selected_headers : List Chars)
    (email_files : List EmailFile) : List AnalysisEntry :=
  email_files.map (fun f =>
    let ed := parse_email f
    { headers := selected_headers.map (fun k => (k, headerGet ed.headers k))
      body_plain := ed.body_plain
      body_html := ed.body_html
      is_spam := true
      spam_patterns := none
      ham_patterns := none
      extracted := none })

/-- The `combined_data` handed to `build_prompt`
(src/core/services.py:271-290): the enhanced entries, with the extracted
spam patterns attached to the first entry when the list is non-empty. -/
def combinedData (selected_headers : List Chars)
    (email_files : List EmailFile) : List AnalysisEntry :=
  let enhanced := enhance_analysis_data (spamAnalysisData selected_headers email_files)
  let spam_patterns :=
    if enhanced ≠ [] then some (extract_common_patterns enhanced) else none
  match enhanced, spam_patterns with
  | [], _ => []
  | e0 :: rest, sp => { e0 with spam_patterns := sp } :: rest

/-- `SpamGenieService.generate_prompt` (src/core/services.py:242-303):
build the prompt from the combined analysis data and store the metadata on
the job only if its metadata field is currently empty. -/
def generate_prompt (store : Store) (selected_headers : List Chars)
    (rg : RuleGen) (email_files : List EmailFile) :
    Except PyErr (Chars × RuleGen) :=
  match build_prompt store (combinedData selected_headers email_files)
      rg.prompt_modules rg.base_prompt_id with
  | .error e => .error e
  | .ok r =>
    let sm : StoredMeta := { meta := r.metadata, spam_count := email_files.length }
    let rg2 :=
      if rg.prompt_metadata = none then { rg with prompt_metadata := some sm }
      else rg
    .ok (r.prompt, rg2)

/-- Behaviour of one invocation of the external OpenAI chat call (client
setup included): it either returns generated text or raises with some
message. -/
inductive GenRaw where
  | success (text : Chars)
  | raiseMsg (msg : Chars)
deriving DecidableEq

def timeoutApology : Chars :=
  ("Request timed out. Please try again or increase the timeout value in settings.").data

def openAIErrPrefix : Chars := ("Error querying OpenAI API: ").data

/-- The error wrapping of `SpamGenieService.query_openai`
(src/core/services.py:351-398): any exception is re-raised with a fixed
prefix, and a message containing "timeout" (case-insensitive) is replaced
by the standard timeout apology. -/
def query_openai (call : GenRaw) : Except Chars Chars :=
  match call with
  | .success t => .ok t
  | .raiseMsg m =>
    let m2 := if containsSub (lowerStr m) (("timeout").data) then timeoutApology else m
    .error (openAIErrPrefix ++ m2)

/-- Behaviour of `future.result(timeout=...)` around the generation call:
either the call completes (with the raw behaviour) or the wait times out. -/
inductive GenCall where
  | completes (r : GenRaw)
  | hitsTimeout
deriving DecidableEq

/-- `str(e)` for the modelled ORM exceptions. -/
def errStr : PyErr → Chars
  | .doesNotExist => ("PromptTemplate matching query does not exist.").data
  | .multipleObjectsReturned =>
    ("get() returned more than one PromptTemplate").data
  | .keyError k => [sqc] ++ k ++ [sqc]

/-- Which of the three terminal branches of `process_rule_generation` ran. -/
inductive Outcome where
  | success
  | timeoutError
  | otherError
deriving DecidableEq

/-- The dict returned by `process_rule_generation`. -/
structure RunRes where
  success : Bool
  error : Option Chars
  rule : Option Chars
  rule_generation_id : Option Nat
deriving DecidableEq

structure ProcResult where
  job : RuleGen
  files : List EmailFile
  res : RunRes
  outcome : Outcome
deriving DecidableEq

/-- `SpamGenieService.process_rule_generation` (src/core/services.py:400-493)
for an existing job record: generate the prompt if unset (any exception
there reaches the outer handler, which records the error and completes the
job); append feedback on a regeneration; then run the generation call under
a timeout, with the three terminal branches of the source.  The timeout
duration is read from settings but does not influence which modelled
branch is taken, so it is not a parameter. -/
def process_rule_generation (store : Store) (selected_headers : List Chars)
    (rg0 : RuleGen) (email_files : List EmailFile) (call : GenCall) :
    ProcResult :=
  let step : Except PyErr RuleGen :=
    if rg0.prompt = [] then
      match generate_prompt store selected_headers rg0 email_files with
      | .error e => .error e
      | .ok (p, rg1) => .ok { rg1 with prompt := p }
    else .ok rg0
  match step with
  | .error e =>
    let msg := errStr e
    { job := { rg0 with error := some msg, is_complete := true }
      files := email_files
      res := { success := false, error := some msg, rule := none
               rule_generation_id := none }
      outcome := .otherError }
  | .ok rg2 =>
    let rg3 :=
      if rg2.is_regeneration ∧ rg2.feedback ≠ [] then
        { rg2 with prompt := rg2.prompt ++ ("\n\nUser Feedback: ").data ++ rg2.feedback }
      else rg2
    match call with
    | .hitsTimeout =>
      { job := { rg3 with rule := some timeoutApology, error := some timeoutApology
                          is_complete := true }
        files := email_files
        res := { success := false, error := some timeoutApology, rule := none
                 rule_generation_id := some rg0.id }
        outcome := .timeoutError }
    | .completes raw =>
      match query_openai raw with
      | .ok rule =>
        { job := { rg3 with rule := some rule, is_complete := true }
          files := email_files.map (fun f => { f with processed := true })
          res := { success := true, error := none, rule := some rule
                   rule_generation_id := some rg0.id }
          outcome := .success }
      | .error m =>
        { job := { rg3 with rule := some m, error := some m, is_complete := true }
          files := email_files
          res := { success := false, error := some m, rule := none
                   rule_generation_id := some rg0.id }
          outcome := .otherError }

def placeholderHeaders : Chars := ("{HEADERS}").data

def placeholderEmailBody : Chars := ("{EMAIL_BODY}").data

/-- The headers block substituted for `{HEADERS}`. -/
def headersBlockOf (analysis : List AnalysisEntry) : Chars :=
  (format_email_data analysis).headers

/-- The `urls`/pattern part of the formatted data, defaulting to empty
(only used beneath a proof that the extra part exists). -/
def fmtExtraOf (analysis : List AnalysisEntry) : FmtExtra :=
  match (format_email_data analysis).extra with
  | some ex => ex
  | none => { urls := [], spam_patterns := none, ham_patterns := none }

/-- The body block substituted for `{EMAIL_BODY}`. -/
def bodyBlockOf (analysis : List AnalysisEntry) : Chars :=
  emailBodyContent (format_email_data analysis) (fmtExtraOf analysis).urls

/-- The base-prompt reference recorded in the metadata when no explicit id
is given. -/
def basePromptRefOf (store : Store) : BasePromptRef :=
  match firstByPk (store.filter (fun t => t.is_base)) with
  | some b => { id := some b.id, name := b.name }
  | none => { id := none, name := ("Unknown Prompt").data }

/-- Specification of the metadata module list: the selected ids in their
given order, keeping exactly those that resolve to a module with a
non-empty template. -/
def resolved_module_refs (store : Store) (mods : List Chars) : List ModuleRef :=
  mods.filterMap (fun m =>
    match objects_get_module store m with
    | .ok (some t) =>
      if t.template = [] then none
      else some { id := t.id, name := t.name, mtype := t.module_type }
    | _ => none)

/-- Specification of the text appended by the module loop. -/
def modules_text (store : Store) (mods : List Chars) : Chars :=
  (mods.filterMap (fun m =>
    match objects_get_module store m with
    | .ok (some t) =>
      if t.template = [] then none else some (("\n\n").data ++ t.template)
    | _ => none)).flatten

/-- Strict lexicographic order on strings (used only to state the spec's
"lexicographically-first by name"). -/
def lexLtChars : Chars → Chars → Bool
  | [], [] => false
  | [], _ :: _ => true
  | _ :: _, [] => false
  | a :: as, b :: bs => if a < b then true else if a = b then lexLtChars as bs else false

/-- The spec's resolution rule, stated from its words: the
lexicographically-first base template by name (leftmost among equals). -/
def firstByName : List PromptTemplate → Option PromptTemplate
  | [] => none
  | t :: ts =>
    match firstByName ts with
    | none => some t
    | some u => if lexLtChars u.name t.name then some u else some t

/-- Single-space-separated join of a list of strings. -/
def joinSp : List Chars → Chars
  | [] => []
  | [u] => u
  | u :: v :: us => u ++ ' ' :: joinSp (v :: us)

/-- `u` is exactly one maximal match of the `_extract_urls` URL pattern. -/
def IsUrlTok (u : Chars) : Prop := matchUrlAt u = some (u, [])

instance instDecIsUrlTok (u : Chars) : Decidable (IsUrlTok u) := by
  unfold IsUrlTok
  exact inferInstance

/-- Store with two base templates whose pk order and name order disagree. -/
def c4store : Store :=
  [{ id := 1, name := ("z").data, template := ("TZ").data
     is_base := true, is_module := false, module_type := [] },
   { id := 2, name := ("a").data, template := ("TA").data
     is_base := true, is_module := false, module_type := [] }]

/-- Base template with two `{HEADERS}` occurrences. -/
def c6store : Store :=
  [{ id := 1, name := ("base").data, template := ("A{HEADERS}B{HEADERS}C").data
     is_base := true, is_module := false, module_type := [] }]

def c6entry : AnalysisEntry :=
  { headers := [], body_plain := [], body_html := []
    is_spam := true, spam_patterns := none, ham_patterns := none, extracted := none }

def c6prompt : Chars :=
  match build_prompt c6store [c6entry] [] none with
  | .ok r => r.prompt
  | .error _ => []

/-- Sample whose HTML contains eleven distinct URLs. -/
def c5entry : AnalysisEntry :=
  { headers := []
    body_plain := []
    body_html := ("http://a http://b http://c http://d http://e http://f http://g http://h http://i http://j http://k").data
    is_spam := true, spam_patterns := none, ham_patterns := none, extracted := none }

/-- A small stored-metadata value for concrete jobs. -/
def demoStoredMeta : StoredMeta :=
  { meta :=
      { base_prompt := { id := none, name := [] }
        modules := []
        email_sample_count := 0
        has_spam_ham_analysis := none }
    spam_count := 0 }

/-- A resubmitted job with feedback whose metadata is already present. -/
def c9job : RuleGen :=
  { id := 7, prompt := ("P").data, prompt_modules := [], base_prompt_id := none
    prompt_metadata := some demoStoredMeta
    rule := none, error := none, is_complete := false
    is_regeneration := true, feedback := ("do better").data }

/-- A job with a custom prompt already set. -/
def c10job : RuleGen :=
  { id := 1, prompt := ("P").data, prompt_modules := [], base_prompt_id := none
    prompt_metadata := none, rule := none, error := none, is_complete := false
    is_regeneration := false, feedback := [] }

/-- Base template with a single occurrence of each placeholder. -/
def c6wstore : Store :=
  [{ id := 1, name := ("base").data, template := ("A {HEADERS} B {EMAIL_BODY} C").data
     is_base := true, is_module := false, module_type := [] }]

/-- Store with one base template and one scoring module. -/
def c8store : Store :=
  [{ id := 1, name := ("base").data, template := ("BASE").data
     is_base := true, is_module := false, module_type := [] },
   { id := 2, name := ("Scoring Module").data, template := ("SCORING RULES").data
     is_base := false, is_module := true, module_type := ("scoring").data }]

def c8mods : List Chars := [("scoring").data, ("missing-id").data]

def c8entry : AnalysisEntry :=
  { headers := [], body_plain := [], body_html := []
    is_spam := true, spam_patterns := none, ham_patterns := none, extracted := none }


theorem generate_prompt_keeps_metadata (store : Store) (sh : List Chars)
    (rg : RuleGen) (files : List EmailFile) (p : Chars) (rg1 : RuleGen)
    (m : StoredMeta) (h : rg.prompt_metadata = some m)
    (hg : generate_prompt store sh rg files = Except.ok (p, rg1)) :
    rg1.prompt_metadata = some m := by
  unfold generate_prompt at hg
  cases hb : build_prompt store (combinedData sh files)
      rg.prompt_modules rg.base_prompt_id with
  | error e => rw [hb] at hg; exact absurd hg (by simp)
  | ok r =>
    rw [hb] at hg
    simp only [h, reduceCtorEq, reduceIte, Except.ok.injEq, Prod.mk.injEq] at hg
    rw [← hg.2, h]

/-- C9: a job's composed-prompt metadata is written at most once: whenever
the metadata field is already non-empty (including on a resubmission with
feedback), a run of the orchestrator leaves it unchanged, so feedback text
is never reflected into it. -/
theorem prompt_metadata_write_once (store : Store) (sh : List Chars)
    (rg0 : RuleGen) (files : List EmailFile) (call : GenCall) (m : StoredMeta)
    (h : rg0.prompt_metadata = some m) :
    (process_rule_generation store sh rg0 files call).job.prompt_metadata = some m := by
  unfold process_rule_generation
  by_cases hp : rg0.prompt = []
  · cases hgen : generate_prompt store sh rg0 files with
    | error e => simp [hp, hgen, h]
    | ok pr =>
      have h1 : pr.2.prompt_metadata = some m :=
        generate_prompt_keeps_metadata store sh rg0 files pr.1 pr.2 m h (by
          rw [hgen])
      cases call with
      | hitsTimeout => simp [hp, hgen, h1]; split <;> rfl
      | completes raw =>
        cases hq : query_openai raw with
        | ok rule => simp [hp, hgen, hq, h1]; split <;> rfl
        | error msg => simp [hp, hgen, hq, h1]; split <;> rfl
  · cases call with
    | hitsTimeout => simp [hp, h]; split <;> simp [h]
    | completes raw =>
      cases hq : query_openai raw with
      | ok rule => simp [hp, hq, h]; split <;> simp [h]
      | error msg => simp [hp, hq, h]; split <;> simp [h]

/-- C9 witness: a job with already-present metadata, resubmitted with
feedback, keeps its metadata through a successful run. -/
theorem prompt_metadata_write_once_witness :
    c9job.prompt_metadata = some demoStoredMeta
    ∧ (process_rule_generation [] [] c9job []
        (GenCall.completes (GenRaw.success (("gen").data)))).job.prompt_metadata
      = some demoStoredMeta :=
  ⟨rfl,
   prompt_metadata_write_once [] [] c9job []
     (GenCall.completes (GenRaw.success (("gen").data))) demoStoredMeta rfl⟩

/-- C1: for every job whose record exists, one invocation of
`process_rule_generation` executes exactly one of the three terminal
outcomes (success, timeout error, other error); in all of them the job ends
with `is_complete = true` and with the rule or the error field populated,
and no exception escapes to the submitter (the run is total and returns a
result dict whose success flag matches the outcome). -/
theorem process_rule_generation_terminal (store : Store) (sh : List Chars)
    (rg0 : RuleGen) (files : List EmailFile) (call : GenCall) :
    (process_rule_generation store sh rg0 files call).job.is_complete = true
    ∧ ((process_rule_generation store sh rg0 files call).job.rule.isSome = true
       ∨ (process_rule_generation store sh rg0 files call).job.error.isSome = true)
    ∧ ((process_rule_generation store sh rg0 files call).outcome = Outcome.success
       ∨ (process_rule_generation store sh rg0 files call).outcome = Outcome.timeoutError
       ∨ (process_rule_generation store sh rg0 files call).outcome = Outcome.otherError)
    ∧ ((process_rule_generation store sh rg0 files call).res.success = true
       ↔ (process_rule_generation store sh rg0 files call).outcome = Outcome.success) := by
  unfold process_rule_generation
  by_cases hp : rg0.prompt = []
  · cases hgen : generate_prompt store sh rg0 files with
    | error e => simp [hp, hgen]
    | ok pr =>
      cases call with
      | hitsTimeout => simp [hp, hgen]
      | completes raw =>
        cases hq : query_openai raw with
        | ok rule => simp [hp, hgen, hq]
        | error msg => simp [hp, hgen, hq]
  · cases call with
    | hitsTimeout => simp [hp]
    | completes raw =>
      cases hq : query_openai raw with
      | ok rule => simp [hp, hq]
      | error msg => simp [hp, hq]

/-- C10: with a prompt already present on the job, the timeout outcome and
the failing-call outcome write one and the same non-empty error message
into both the job's error field and its rule (resultText) field, while
only the success outcome stores the generated text in the rule field
(leaving the error field untouched). -/
theorem failure_outcome_fields (store : Store) (sh : List Chars)
    (rg0 : RuleGen) (files : List EmailFile) (hp : rg0.prompt ≠ []) :
    (∀ t, (process_rule_generation store sh rg0 files
             (GenCall.completes (GenRaw.success t))).job.rule = some t
        ∧ (process_rule_generation store sh rg0 files
             (GenCall.completes (GenRaw.success t))).job.error = rg0.error)
    ∧ ((process_rule_generation store sh rg0 files GenCall.hitsTimeout).job.rule
         = some timeoutApology
       ∧ (process_rule_generation store sh rg0 files GenCall.hitsTimeout).job.error
         = some timeoutApology
       ∧ timeoutApology ≠ [])
    ∧ (∀ msg, ∃ w, w ≠ []
        ∧ (process_rule_generation store sh rg0 files
             (GenCall.completes (GenRaw.raiseMsg msg))).job.rule = some w
        ∧ (process_rule_generation store sh rg0 files
             (GenCall.completes (GenRaw.raiseMsg msg))).job.error = some w) := by
  refine ⟨fun t => ?_, ⟨?_, ?_, by decide⟩, fun msg => ?_⟩
  · constructor
    · simp [process_rule_generation, hp, query_openai]
    · simp [process_rule_generation, hp, query_openai]
      split <;> rfl
  · simp [process_rule_generation, hp]
  · simp [process_rule_generation, hp]
  · refine ⟨openAIErrPrefix ++
      (if containsSub (lowerStr msg) (("timeout").data) then timeoutApology else msg),
      ?_, ?_, ?_⟩
    · intro hcon
      rw [List.append_eq_nil] at hcon
      exact absurd hcon.1 (by decide)
    · simp [process_rule_generation, hp, query_openai]
    · simp [process_rule_generation, hp, query_openai]

/-- C10 witness: a job with a custom prompt, exercised on the success
outcome. -/
theorem failure_outcome_fields_witness :
    c10job.prompt ≠ []
    ∧ (process_rule_generation [] [] c10job []
        (GenCall.completes (GenRaw.success (("R").data)))).job.rule
      = some (("R").data) :=
  ⟨by decide,
   ((failure_outcome_fields [] [] c10job [] (by decide)).1 (("R").data)).1⟩

/-- C2: `build_prompt` is a pure function of the template store, the
analysis data (samples with their selected headers), the module id list
and the base prompt id: two calls on identical inputs return identical
results, text and metadata alike. -/
theorem build_prompt_deterministic (s1 s2 : Store) (a1 a2 : List AnalysisEntry)
    (m1 m2 : List Chars) (b1 b2 : Option Nat)
    (hs : s1 = s2) (ha : a1 = a2) (hm : m1 = m2) (hb : b1 = b2) :
    build_prompt s1 a1 m1 b1 = build_prompt s2 a2 m2 b2 := by
  subst hs; subst ha; subst hm; subst hb; rfl

/-- C2 witness: two calls on one concrete input agree. -/
theorem build_prompt_deterministic_witness :
    ([] : Store) = [] ∧ build_prompt [] [] [] none = build_prompt [] [] [] none :=
  ⟨rfl, build_prompt_deterministic [] [] [] [] [] [] none none rfl rfl rfl rfl⟩

/-- C7: when the base prompt resolves to the empty string (in particular
when no base template exists), `build_prompt` returns, without raising, an
empty prompt plus marker metadata: a null base-prompt id with the
"No Base Prompt Found" name, an empty module list, and the sample count. -/
theorem build_prompt_no_base (store : Store) (analysis : List AnalysisEntry)
    (mods : List Chars) (bid : Option Nat)
    (hres : get_base_prompt store bid = Except.ok []) :
    build_prompt store analysis mods bid =
      Except.ok
        { prompt := []
          metadata :=
            { base_prompt := { id := none, name := ("No Base Prompt Found").data }
              modules := []
              email_sample_count := analysis.length
              has_spam_ham_analysis := none } } := by
  unfold build_prompt
  rw [hres]
  rfl

/-- C7 witness: an empty template store on a one-sample job. -/
theorem build_prompt_no_base_witness :
    get_base_prompt [] none = Except.ok []
    ∧ build_prompt []
        [{ headers := [], body_plain := [], body_html := [], is_spam := true
           spam_patterns := none, ham_patterns := none, extracted := none }] [] none =
        Except.ok
          { prompt := []
            metadata :=
              { base_prompt := { id := none, name := ("No Base Prompt Found").data }
                modules := []
                email_sample_count := 1
                has_spam_ham_analysis := none } } :=
  ⟨rfl,
   build_prompt_no_base []
     [{ headers := [], body_plain := [], body_html := [], is_spam := true
        spam_patterns := none, ham_patterns := none, extracted := none }] [] none rfl⟩

theorem firstByPk_eq_none (l : List PromptTemplate) :
    firstByPk l = none ↔ l = [] := by
  cases l with
  | nil => simp [firstByPk]
  | cons t ts =>
    unfold firstByPk
    cases firstByPk ts with
    | none => simp
    | some u =>
      by_cases hlt : u.id < t.id
      · simp [hlt]
      · simp [hlt]

theorem firstByPk_spec (l : List PromptTemplate) (t : PromptTemplate)
    (h : firstByPk l = some t) : t ∈ l ∧ ∀ u ∈ l, t.id ≤ u.id := by
  induction l generalizing t with
  | nil => cases h
  | cons t0 ts ih =>
    unfold firstByPk at h
    cases hf : firstByPk ts with
    | none =>
      rw [hf] at h
      simp only [Option.some.injEq] at h
      subst h
      have hts : ts = [] := (firstByPk_eq_none ts).mp hf
      subst hts
      refine ⟨List.mem_cons_self _ _, ?_⟩
      intro u hu
      rcases List.mem_cons.mp hu with h1 | h1
      · subst h1; exact le_refl _
      · cases h1
    | some u0 =>
      rw [hf] at h
      dsimp only at h
      rcases ih u0 hf with ⟨hmem, hle⟩
      by_cases hlt : u0.id < t0.id
      · rw [if_pos hlt] at h
        simp only [Option.some.injEq] at h
        subst h
        refine ⟨List.mem_cons_of_mem _ hmem, ?_⟩
        intro u hu
        rcases List.mem_cons.mp hu with h1 | h1
        · subst h1; exact le_of_lt hlt
        · exact hle u h1
      · rw [if_neg hlt] at h
        simp only [Option.some.injEq] at h
        subst h
        refine ⟨List.mem_cons_self _ _, ?_⟩
        intro u hu
        rcases List.mem_cons.mp hu with h1 | h1
        · subst h1; exact le_refl _
        · exact le_trans (Nat.le_of_not_lt hlt) (hle u h1)

/-- C4 counterexample: in a store whose two base templates have opposite
pk order and name order, the code resolves the pk-first template ("TZ"),
not the lexicographically-first-by-name template ("TA") the claim
predicts. -/
theorem get_base_prompt_order_counterexample :
    (Option.map (fun t => t.template)
        (firstByName (c4store.filter (fun t => t.is_base)))) = some (("TA").data)
    ∧ get_base_prompt c4store none = Except.ok (("TZ").data)
    ∧ (("TZ").data : Chars) ≠ ("TA").data := by
  decide

/-- C4 amended: `get_base_prompt` with no (or falsy) id returns the text of
the base template that is first in primary-key order; with a given id that
uniquely matches a base template it returns that template's text; and when
nothing matches it returns an empty string without raising. -/
theorem get_base_prompt_resolution (store : Store) :
    (∀ t0, t0 ∈ store → t0.is_base = true →
       ∃ t, t ∈ store ∧ t.is_base = true
         ∧ (∀ u, u ∈ store → u.is_base = true → t.id ≤ u.id)
         ∧ get_base_prompt store none = Except.ok t.template)
    ∧ (∀ i t, (store.filter (fun u => u.id == i && u.is_base)).length ≤ 1 →
         i ≠ 0 → t ∈ store → t.id = i → t.is_base = true →
         get_base_prompt store (some i) = Except.ok t.template)
    ∧ (∀ bid, (∀ t, t ∈ store → t.is_base = false) →
         get_base_prompt store bid = Except.ok []) := by
  refine ⟨?_, ?_, ?_⟩
  · intro t0 hmem hbase
    have h0 : t0 ∈ store.filter (fun t => t.is_base) := by
      simp [List.mem_filter, hmem, hbase]
    cases hf : firstByPk (store.filter (fun t => t.is_base)) with
    | none =>
      rw [firstByPk_eq_none] at hf
      rw [hf] at h0
      cases h0
    | some t =>
      rcases firstByPk_spec _ t hf with ⟨htmem, htle⟩
      refine ⟨t, (List.mem_filter.mp htmem).1, (List.mem_filter.mp htmem).2, ?_, ?_⟩
      · intro u hu hub
        exact htle u (by simp [List.mem_filter, hu, hub])
      · simp [get_base_prompt, idTruthy, hf]
  · intro i t hlen hi hmem hid hbase
    have htf : t ∈ store.filter (fun u => u.id == i && u.is_base) := by
      simp [List.mem_filter, hmem, hid, hbase]
    have hfl : store.filter (fun u => u.id == i && u.is_base) = [t] := by
      cases hl : store.filter (fun u => u.id == i && u.is_base) with
      | nil => rw [hl] at htf; cases htf
      | cons a rest =>
        cases rest with
        | nil =>
          rw [hl] at htf
          rcases List.mem_cons.mp htf with h1 | h1
          · subst h1; rfl
          · cases h1
        | cons b r2 => rw [hl] at hlen; simp at hlen
    have hit : idTruthy (some i) = true := by simp [idTruthy, hi]
    simp [get_base_prompt, hit, hfl]
  · intro bid hnone
    unfold get_base_prompt
    by_cases hb : idTruthy bid = true
    · rw [if_pos hb]
      have : store.filter (fun t => t.id == bid.getD 0 && t.is_base) = [] := by
        rw [List.filter_eq_nil_iff]
        intro a ha
        simp [hnone a ha]
      rw [this]
    · rw [if_neg hb]
      have : store.filter (fun t => t.is_base) = [] := by
        rw [List.filter_eq_nil_iff]
        intro a ha
        simp [hnone a ha]
      rw [this]
      simp [firstByPk]

/-- C4 witness: the amended resolution applied to the two-template store,
with the explicit id 2. -/
theorem get_base_prompt_resolution_witness :
    get_base_prompt c4store (some 2) = Except.ok (("TA").data) :=
  (get_base_prompt_resolution c4store).2.1 2
    { id := 2, name := ("a").data, template := ("TA").data
      is_base := true, is_module := false, module_type := [] }
    (by decide) (by decide) (by decide) (by decide) (by decide)

theorem body_patterns_loop_spec (l : List AnalysisEntry) :
    ∀ us ps fs, body_patterns_loop l (us, ps, fs)
      = (us ++ l.flatMap (fun e => extract_urls e.body_html),
         ps ++ l.flatMap (fun e => extract_common_phrases e.body_plain),
         fs ++ l.flatMap (fun e =>
           if e.body_html ≠ [] then [analyze_html_formatting e.body_html] else [])) := by
  induction l with
  | nil => intro us ps fs; simp [body_patterns_loop]
  | cons e rest ih =>
    intro us ps fs
    simp only [body_patterns_loop]
    rw [ih]
    simp [List.flatMap_cons, List.append_assoc]

/-- C5 counterexample: a single sample whose HTML holds eleven distinct
URLs contributes eleven entries to `url_patterns` — the aggregate step does
not cap a sample's URL contribution at 10. -/
theorem url_patterns_cap_counterexample :
    (extract_common_patterns [c5entry]).body_patterns.url_patterns.length = 11
    ∧ ¬ ((extract_common_patterns [c5entry]).body_patterns.url_patterns.length ≤ 10) := by
  decide

/-- C5 amended: the aggregate step extends `urlPatterns` with each sample's
full `extractUrls` result, in sample order and with no per-sample cap; each
sample's contribution is deduplicated within the sample only. -/
theorem url_patterns_uncapped (analysis : List AnalysisEntry) :
    (extract_common_patterns analysis).body_patterns.url_patterns
      = analysis.flatMap (fun e => extract_urls e.body_html)
    ∧ ∀ e, e ∈ analysis → (extract_urls e.body_html).Nodup := by
  constructor
  · unfold extract_common_patterns
    rw [body_patterns_loop_spec]
    simp
  · intro e _
    exact List.nodup_dedup _

/-- C5 witness: the amended statement evaluated on the eleven-URL sample. -/
theorem url_patterns_uncapped_witness :
    (extract_common_patterns [c5entry]).body_patterns.url_patterns
      = [c5entry].flatMap (fun e => extract_urls e.body_html) :=
  (url_patterns_uncapped [c5entry]).1

theorem stripPrefixCh_nil (s : Chars) : stripPrefixCh [] s = some s := rfl

theorem stripPrefixCh_cons (p c : Char) (ps cs : Chars) :
    stripPrefixCh (p :: ps) (c :: cs)
      = if p = c then stripPrefixCh ps cs else none := rfl

theorem takeUnits_class (c : Char) (rest : Chars) (hc : isClassChar c = true) :
    takeUnits (c :: rest) = (c :: (takeUnits rest).1, (takeUnits rest).2) := by
  rw [takeUnits.eq_def]
  simp [hc]

theorem takeUnits_pct (a b : Char) (rest2 : Chars)
    (hx : (isHexDigitCh a && isHexDigitCh b) = true) :
    takeUnits ('%' :: a :: b :: rest2)
      = ('%' :: a :: b :: (takeUnits rest2).1, (takeUnits rest2).2) := by
  rw [takeUnits.eq_def]
  simp [hx, show isClassChar '%' = false from by decide]

theorem takeUnits_pct_bad (a b : Char) (rest2 : Chars)
    (hx : (isHexDigitCh a && isHexDigitCh b) = false) :
    takeUnits ('%' :: a :: b :: rest2) = ([], '%' :: a :: b :: rest2) := by
  rw [takeUnits.eq_def]
  simp [hx, show isClassChar '%' = false from by decide]

theorem takeUnits_pct_nil : takeUnits ['%'] = ([], ['%']) := by decide

theorem takeUnits_pct_one (a : Char) : takeUnits ['%', a] = ([], ['%', a]) := by
  rw [takeUnits.eq_def]
  simp [show isClassChar '%' = false from by decide]

theorem takeUnits_stop (c : Char) (r : Chars) (hc : isClassChar c = false)
    (hp : c ≠ '%') : takeUnits (c :: r) = ([], c :: r) := by
  rw [takeUnits.eq_def]
  simp [hc, hp]

theorem stripPrefixCh_self (p t : Chars) : stripPrefixCh p (p ++ t) = some t := by
  induction p with
  | nil => rfl
  | cons c cs ih => simp [stripPrefixCh_cons, ih]

theorem stripPrefixCh_some (p : Chars) : ∀ s b : Chars,
    stripPrefixCh p s = some b → s = p ++ b := by
  induction p with
  | nil =>
    intro s b h
    rw [stripPrefixCh_nil, Option.some.injEq] at h
    simp [h]
  | cons c cs ih =>
    intro s b h
    cases s with
    | nil => cases h
    | cons d ds =>
      rw [stripPrefixCh_cons] at h
      by_cases hcd : c = d
      · rw [if_pos hcd] at h
        subst hcd
        rw [List.cons_append, ih ds b h]
      · rw [if_neg hcd] at h
        cases h

theorem stripPrefixCh_none_extend (p : Chars) : ∀ s t : Chars,
    p.length ≤ s.length → stripPrefixCh p s = none →
    stripPrefixCh p (s ++ t) = none := by
  induction p with
  | nil => intro s t _ h; cases h
  | cons c cs ih =>
    intro s t hlen h
    cases s with
    | nil => simp at hlen
    | cons d ds =>
      rw [stripPrefixCh_cons] at h
      rw [List.cons_append, stripPrefixCh_cons]
      by_cases hcd : c = d
      · rw [if_pos hcd] at h ⊢
        exact ih ds t (by simp at hlen; omega) h
      · rw [if_neg hcd]

theorem takeUnits_append_eq (n : Nat) : ∀ s : Chars, s.length ≤ n →
    (takeUnits s).1 ++ (takeUnits s).2 = s := by
  induction n with
  | zero =>
    intro s hs
    have h0 : s = [] := List.length_eq_zero.mp (Nat.le_zero.mp hs)
    subst h0
    rfl
  | succ n ih =>
    intro s hs
    cases s with
    | nil => rfl
    | cons c rest =>
      cases hc : isClassChar c with
      | true =>
        rw [takeUnits_class c rest hc]
        have h2 := ih rest (by simp at hs; omega)
        simp [h2]
      | false =>
        by_cases hp : c = '%'
        · subst hp
          rcases rest with _ | ⟨a, _ | ⟨b, rest2⟩⟩
          · rw [takeUnits_pct_nil]; rfl
          · rw [takeUnits_pct_one a]; rfl
          · cases hx : (isHexDigitCh a && isHexDigitCh b) with
            | true =>
              rw [takeUnits_pct a b rest2 hx]
              have h2 := ih rest2 (by simp at hs; omega)
              simp [h2]
            | false =>
              rw [takeUnits_pct_bad a b rest2 hx]; rfl
        · rw [takeUnits_stop c rest hc hp]; rfl

theorem takeUnits_append_eq_all (s : Chars) :
    (takeUnits s).1 ++ (takeUnits s).2 = s :=
  takeUnits_append_eq s.length s (le_refl _)

theorem takeUnits_all_append (n : Nat) : ∀ s : Chars, s.length ≤ n →
    takeUnits s = (s, []) → ∀ r,
    takeUnits (s ++ r) = (s ++ (takeUnits r).1, (takeUnits r).2) := by
  induction n with
  | zero =>
    intro s hs _ r
    have h0 : s = [] := List.length_eq_zero.mp (Nat.le_zero.mp hs)
    subst h0
    simp
  | succ n ih =>
    intro s hs h r
    cases s with
    | nil => simp
    | cons c rest =>
      cases hc : isClassChar c with
      | true =>
        rw [takeUnits_class c rest hc, Prod.mk.injEq, List.cons.injEq] at h
        have hrest : takeUnits rest = (rest, []) := Prod.ext h.1.2 h.2
        rw [List.cons_append, takeUnits_class c (rest ++ r) hc,
          ih rest (by simp at hs; omega) hrest r]
        simp
      | false =>
        by_cases hp : c = '%'
        · subst hp
          rcases rest with _ | ⟨a, _ | ⟨b, rest2⟩⟩
          · rw [takeUnits_pct_nil, Prod.mk.injEq] at h
            exact absurd h.1 (by simp)
          · rw [takeUnits_pct_one a, Prod.mk.injEq] at h
            exact absurd h.1 (by simp)
          · cases hx : (isHexDigitCh a && isHexDigitCh b) with
            | true =>
              rw [takeUnits_pct a b rest2 hx, Prod.mk.injEq, List.cons.injEq,
                List.cons.injEq, List.cons.injEq] at h
              have hrest : takeUnits rest2 = (rest2, []) :=
                Prod.ext h.1.2.2.2 h.2
              rw [List.cons_append, List.cons_append, List.cons_append,
                takeUnits_pct a b (rest2 ++ r) hx,
                ih rest2 (by simp at hs; omega) hrest r]
              simp
            | false =>
              rw [takeUnits_pct_bad a b rest2 hx, Prod.mk.injEq] at h
              exact absurd h.1 (by simp)
        · rw [takeUnits_stop c rest hc hp, Prod.mk.injEq] at h
          exact absurd h.1 (by simp)

theorem isUrlTok_cases (u : Chars) (h : IsUrlTok u) :
    (∃ b, u = httpsScheme ++ b ∧ b ≠ [] ∧ takeUnits b = (b, []))
    ∨ (∃ b, u = httpScheme ++ b ∧ b ≠ [] ∧ takeUnits b = (b, [])
        ∧ stripPrefixCh httpsScheme u = none) := by
  unfold IsUrlTok matchUrlAt at h
  cases hsv : stripPrefixCh httpsScheme u with
  | some b =>
    rw [hsv] at h
    dsimp only at h
    by_cases hb : (takeUnits b).1 = []
    · rw [if_pos hb] at h; cases h
    · rw [if_neg hb] at h
      rw [Option.some.injEq, Prod.mk.injEq] at h
      have hu : u = httpsScheme ++ b := stripPrefixCh_some _ _ _ hsv
      have hsplit := takeUnits_append_eq_all b
      rw [h.2, List.append_nil] at hsplit
      left
      refine ⟨b, hu, fun hbnil => hb (hsplit.trans hbnil), Prod.ext hsplit h.2⟩
  | none =>
    rw [hsv] at h
    dsimp only at h
    cases htv : stripPrefixCh httpScheme u with
    | some b =>
      rw [htv] at h
      dsimp only at h
      by_cases hb : (takeUnits b).1 = []
      · rw [if_pos hb] at h; cases h
      · rw [if_neg hb] at h
        rw [Option.some.injEq, Prod.mk.injEq] at h
        have hu : u = httpScheme ++ b := stripPrefixCh_some _ _ _ htv
        have hsplit := takeUnits_append_eq_all b
        rw [h.2, List.append_nil] at hsplit
        right
        exact ⟨b, hu, fun hbnil => hb (hsplit.trans hbnil),
          Prod.ext hsplit h.2, rfl⟩
    | none => rw [htv] at h; cases h

theorem isUrlTok_length (u : Chars) (h : IsUrlTok u) : 8 ≤ u.length := by
  rcases isUrlTok_cases u h with ⟨b, hu, hb, _⟩ | ⟨b, hu, hb, _, _⟩
  · subst hu
    have hb1 : 0 < b.length := List.length_pos.mpr hb
    rw [List.length_append]
    have h8 : httpsScheme.length = 8 := rfl
    omega
  · subst hu
    have hb1 : 0 < b.length := List.length_pos.mpr hb
    rw [List.length_append]
    have h7 : httpScheme.length = 7 := rfl
    omega

theorem matchUrlAt_space (r : Chars) : matchUrlAt (' ' :: r) = none := by
  unfold matchUrlAt
  have h1 : stripPrefixCh httpsScheme (' ' :: r) = none := by
    rw [show httpsScheme
        = 'h' :: ('t' :: 't' :: 'p' :: 's' :: ':' :: '/' :: '/' :: []) from rfl,
      stripPrefixCh_cons, if_neg (by decide)]
  have h2 : stripPrefixCh httpScheme (' ' :: r) = none := by
    rw [show httpScheme
        = 'h' :: ('t' :: 't' :: 'p' :: ':' :: '/' :: '/' :: []) from rfl,
      stripPrefixCh_cons, if_neg (by decide)]
  rw [h1, h2]

theorem isUrlTok_match_sep (u r : Chars) (h : IsUrlTok u) :
    matchUrlAt (u ++ ' ' :: r) = some (u, ' ' :: r) := by
  have hstop : takeUnits (' ' :: r) = ([], ' ' :: r) :=
    takeUnits_stop ' ' r (by decide) (by decide)
  rcases isUrlTok_cases u h with ⟨b, hu, hb, htu⟩ | ⟨b, hu, hb, htu, hns⟩
  · subst hu
    unfold matchUrlAt
    rw [List.append_assoc, stripPrefixCh_self]
    dsimp only
    rw [takeUnits_all_append b.length b (le_refl _) htu (' ' :: r), hstop]
    simp [hb]
  · subst hu
    have hlen : httpsScheme.length ≤ (httpScheme ++ b).length := by
      rw [List.length_append]
      have hb1 : 0 < b.length := List.length_pos.mpr hb
      have h8 : httpsScheme.length = 8 := rfl
      have h7 : httpScheme.length = 7 := rfl
      omega
    have h1 : stripPrefixCh httpsScheme ((httpScheme ++ b) ++ ' ' :: r) = none :=
      stripPrefixCh_none_extend _ _ _ hlen hns
    unfold matchUrlAt
    rw [List.append_assoc] at h1
    rw [List.append_assoc, h1]
    dsimp only
    rw [stripPrefixCh_self]
    dsimp only
    rw [takeUnits_all_append b.length b (le_refl _) htu (' ' :: r), hstop]
    simp [hb]

theorem findallW_step (m : Chars → Option (Chars × Chars)) (fuel : Nat)
    (s u r : Chars) (hs : s ≠ []) (hm : m s = some (u, r)) :
    findallW m (fuel + 1) s = u :: findallW m fuel r := by
  cases s with
  | nil => exact absurd rfl hs
  | cons c cs =>
    simp only [findallW, hm]

theorem findallW_skip (m : Chars → Option (Chars × Chars)) (fuel : Nat)
    (c : Char) (cs : Chars) (hm : m (c :: cs) = none) :
    findallW m (fuel + 1) (c :: cs) = findallW m fuel cs := by
  simp only [findallW, hm]

theorem joinSp_cons_len (v : Chars) (vs : List Chars) :
    v.length ≤ (joinSp (v :: vs)).length := by
  cases vs with
  | nil => simp [joinSp]
  | cons w ws => simp [joinSp]

theorem findall_joinSp (urls : List Chars) : ∀ fuel : Nat,
    (∀ u ∈ urls, IsUrlTok u) → (joinSp urls).length ≤ fuel →
    findallW matchUrlAt fuel (joinSp urls) = urls := by
  induction urls with
  | nil =>
    intro fuel _ _
    cases fuel <;> rfl
  | cons u us ih =>
    intro fuel h hfuel
    have hu : IsUrlTok u := h u (List.mem_cons_self _ _)
    have hul : 8 ≤ u.length := isUrlTok_length u hu
    have hune : u ≠ [] := by
      intro h0
      rw [h0] at hul
      simp at hul
    cases us with
    | nil =>
      simp only [joinSp] at hfuel ⊢
      cases fuel with
      | zero => omega
      | succ n =>
        rw [findallW_step matchUrlAt n u u [] hune hu]
        cases n <;> rfl
    | cons v vs =>
      have hscons : joinSp (u :: v :: vs) = u ++ ' ' :: joinSp (v :: vs) := rfl
      rw [hscons] at hfuel ⊢
      have hvl : 8 ≤ (joinSp (v :: vs)).length :=
        le_trans (isUrlTok_length v (h v (by simp))) (joinSp_cons_len v vs)
      rw [List.length_append] at hfuel
      simp only [List.length_cons] at hfuel
      cases fuel with
      | zero => omega
      | succ n =>
        rw [findallW_step matchUrlAt n (u ++ ' ' :: joinSp (v :: vs)) u
          (' ' :: joinSp (v :: vs)) (by simp) (isUrlTok_match_sep u _ hu)]
        cases n with
        | zero => omega
        | succ n2 =>
          rw [findallW_skip matchUrlAt n2 ' ' (joinSp (v :: vs))
            (matchUrlAt_space _)]
          rw [ih n2 (fun w hw => h w (List.mem_cons_of_mem _ hw)) (by omega)]

/-- C3 counterexample: on the HTML "http://a.com/x", the spec's URL pattern
(scheme then a run of non-whitespace/non-angle/non-quote characters, the
pattern `format_email_data` actually uses) matches the whole string, but
`extract_urls` — whose character class is `[-\w.]` plus `%hh` escapes —
stops at the slash and returns "http://a.com" instead, so the returned set
is not the set of spec-pattern URLs. -/
theorem extract_urls_pattern_counterexample :
    fmt_findall_urls (("http://a.com/x").data) = [("http://a.com/x").data]
    ∧ extract_urls (("http://a.com/x").data) = [("http://a.com").data]
    ∧ ¬ (("http://a.com/x").data ∈ extract_urls (("http://a.com/x").data)) := by
  decide

/-- C3 amended: for every whitespace-separated sequence of URLs each of
which is a maximal match of the code's pattern `https?://` followed by a
non-empty run of `[-\w.]` characters or `%hh` escapes, `extract_urls`
returns exactly that set of URLs, deduplicated, independently of the order
of occurrence. -/
theorem extract_urls_space_separated (urls : List Chars)
    (h : ∀ u ∈ urls, IsUrlTok u) :
    extract_urls (joinSp urls) = List.dedup urls
    ∧ (extract_urls (joinSp urls)).Nodup
    ∧ (∀ x, x ∈ extract_urls (joinSp urls) ↔ x ∈ urls) := by
  have hf : findallW matchUrlAt (joinSp urls).length (joinSp urls) = urls :=
    findall_joinSp urls (joinSp urls).length h (le_refl _)
  unfold extract_urls
  rw [hf]
  exact ⟨rfl, List.nodup_dedup _, fun x => List.mem_dedup⟩

/-- C3 witness: two concrete pattern URLs in one HTML string. -/
theorem extract_urls_space_separated_witness :
    (∀ u ∈ ([("http://a.com").data, ("https://b-c.org").data] : List Chars),
      IsUrlTok u)
    ∧ extract_urls (joinSp [("http://a.com").data, ("https://b-c.org").data])
        = List.dedup [("http://a.com").data, ("https://b-c.org").data] :=
  ⟨by decide,
   (extract_urls_space_separated
     [("http://a.com").data, ("https://b-c.org").data] (by decide)).1⟩

theorem prefixOf_append_self (p t : Chars) : p.isPrefixOf (p ++ t) = true := by
  induction p with
  | nil => cases t <;> rfl
  | cons c cs ih => simp [List.isPrefixOf, ih]

theorem prefixOf_of_append (p : Chars) : ∀ s t : Chars,
    p.isPrefixOf (s ++ t) = true → p.length ≤ s.length →
    p.isPrefixOf s = true := by
  induction p with
  | nil => intro s t _ _; cases s <;> rfl
  | cons c cs ih =>
    intro s t h hlen
    cases s with
    | nil => simp at hlen
    | cons d ds =>
      rw [List.cons_append] at h
      simp only [List.isPrefixOf, Bool.and_eq_true] at h ⊢
      exact ⟨h.1, ih ds t h.2 (by simp at hlen; omega)⟩

theorem containsSub_false_cons (c : Char) (s pat : Chars)
    (h : containsSub (c :: s) pat = false) :
    pat.isPrefixOf (c :: s) = false ∧ containsSub s pat = false := by
  simp only [containsSub, Bool.or_eq_false_iff] at h
  exact h

theorem containsSub_false_not_prefix (s pat : Chars)
    (h : containsSub s pat = false) : pat.isPrefixOf s = false := by
  cases s with
  | nil => exact h
  | cons c s2 => exact (containsSub_false_cons c s2 pat h).1

theorem pyReplace_no_occ (pat rep : Chars) : ∀ (n : Nat) (s : Chars),
    containsSub s pat = false → pyReplace n s pat rep = s := by
  intro n
  induction n with
  | zero => intro s _; rfl
  | succ n ih =>
    intro s h
    have hpre : pat.isPrefixOf s = false := containsSub_false_not_prefix s pat h
    cases s with
    | nil =>
      simp only [pyReplace]
      rw [if_neg (by simp [hpre])]
    | cons c s2 =>
      simp only [pyReplace]
      rw [if_neg (by simp [hpre])]
      have h2 := (containsSub_false_cons c s2 pat h).2
      rw [ih s2 h2]

theorem pyReplace_at (pat rep : Chars) (hne : pat ≠ []) :
    ∀ (X R : Chars) (k : Nat),
    containsSub (X ++ pat.dropLast) pat = false →
    pyReplace (X.length + 1 + k) (X ++ pat ++ R) pat rep
      = X ++ rep ++ pyReplace k R pat rep := by
  intro X
  induction X with
  | nil =>
    intro R k h
    have hfuel : ([] : Chars).length + 1 + k = k + 1 := by
      simp only [List.length_nil]
      omega
    rw [hfuel]
    simp only [List.nil_append]
    simp only [pyReplace]
    rw [if_pos ⟨hne, prefixOf_append_self pat R⟩, List.drop_left]
  | cons c X' ih =>
    intro R k h
    have hfuel : (c :: X').length + 1 + k = (X'.length + 1 + k) + 1 := by
      simp [List.length_cons]
      omega
    rw [hfuel]
    simp only [List.cons_append]
    have hfirst : pat.isPrefixOf (c :: (X' ++ pat.dropLast)) = false :=
      containsSub_false_not_prefix _ pat (by simpa using h)
    have hnotpre : pat.isPrefixOf (c :: (X' ++ (pat ++ R))) = false := by
      cases hx : pat.isPrefixOf (c :: (X' ++ (pat ++ R))) with
      | false => rfl
      | true =>
        exfalso
        have hdec : c :: (X' ++ (pat ++ R))
            = (c :: (X' ++ pat.dropLast)) ++ ([pat.getLast hne] ++ R) := by
          conv_lhs => rw [← List.dropLast_append_getLast hne]
          simp [List.append_assoc]
        rw [hdec] at hx
        have hle : pat.length ≤ (c :: (X' ++ pat.dropLast)).length := by
          simp [List.length_cons, List.length_append, List.length_dropLast]
          have hp0 : 0 < pat.length := List.length_pos.mpr hne
          omega
        have hcontr := prefixOf_of_append pat _ _ hx hle
        rw [hfirst] at hcontr
        exact absurd hcontr (by decide)
    simp only [pyReplace]
    rw [if_neg (by simp [hnotpre])]
    have h2 : containsSub (X' ++ pat.dropLast) pat = false :=
      (containsSub_false_cons c (X' ++ pat.dropLast) pat (by simpa using h)).2
    rw [ih R k h2]

theorem strReplace_at (pat rep X R : Chars) (hne : pat ≠ [])
    (h1 : containsSub (X ++ pat.dropLast) pat = false)
    (h2 : containsSub R pat = false) :
    strReplace (X ++ pat ++ R) pat rep = X ++ rep ++ R := by
  unfold strReplace
  have hp0 : 0 < pat.length := List.length_pos.mpr hne
  have hlen : (X ++ pat ++ R).length
      = X.length + 1 + (pat.length - 1 + R.length) := by
    simp [List.length_append]
    omega
  rw [hlen, pyReplace_at pat rep hne X R _ h1,
    pyReplace_no_occ pat rep _ R h2]

theorem strReplace_no_occ (s pat rep : Chars)
    (h : containsSub s pat = false) : strReplace s pat rep = s :=
  pyReplace_no_occ pat rep s.length s h

theorem add_modules_spec (store : Store) : ∀ (mods : List Chars) (p : Chars)
    (refs : List ModuleRef),
    (∀ m ∈ mods,
      (store.filter (fun t => t.is_module && t.module_type == m)).length ≤ 1) →
    add_modules store mods p refs
      = Except.ok (p ++ modules_text store mods,
          refs ++ resolved_module_refs store mods) := by
  intro mods
  induction mods with
  | nil =>
    intro p refs _
    simp [add_modules, modules_text, resolved_module_refs]
  | cons m rest ih =>
    intro p refs huniq
    have h1 := huniq m (by simp)
    cases hl : store.filter (fun t => t.is_module && t.module_type == m) with
    | nil =>
      have hget : objects_get_module store m = Except.ok none := by
        unfold objects_get_module
        rw [hl]
      simp only [add_modules, hget]
      rw [ih p refs (fun x hx => huniq x (by simp [hx]))]
      simp [modules_text, resolved_module_refs, List.filterMap_cons, hget]
    | cons t ts =>
      cases ts with
      | nil =>
        have hget : objects_get_module store m = Except.ok (some t) := by
          unfold objects_get_module
          rw [hl]
        by_cases htpl : t.template = []
        · simp only [add_modules, hget]
          rw [if_pos htpl, ih p refs (fun x hx => huniq x (by simp [hx]))]
          simp [modules_text, resolved_module_refs, List.filterMap_cons, hget, htpl]
        · simp only [add_modules, hget]
          rw [if_neg htpl, ih _ _ (fun x hx => huniq x (by simp [hx]))]
          simp [modules_text, resolved_module_refs, List.filterMap_cons, hget,
            htpl, List.append_assoc]
      | cons t2 ts2 =>
        rw [hl] at h1
        simp at h1

theorem build_prompt_ok_shape (store : Store) (analysis : List AnalysisEntry)
    (mods : List Chars) (e0 : AnalysisEntry) (rest : List AnalysisEntry)
    (T : Chars)
    (han : analysis = e0 :: rest)
    (hb : get_base_prompt store none = Except.ok T) (hT : T ≠ [])
    (huniq : ∀ m ∈ mods,
      (store.filter (fun t => t.is_module && t.module_type == m)).length ≤ 1) :
    build_prompt store analysis mods none
      = Except.ok
          { prompt :=
              strReplace
                  (strReplace T placeholderHeaders
                    (format_email_data analysis).headers)
                  placeholderEmailBody (bodyBlockOf analysis)
                ++ spamHamContent (fmtExtraOf analysis)
                ++ modules_text store mods ++ reminderText
            metadata :=
              { base_prompt := basePromptRefOf store
                modules := resolved_module_refs store mods
                email_sample_count := analysis.length
                has_spam_ham_analysis := some true } } := by
  subst han
  unfold build_prompt
  rw [hb]
  dsimp only
  rw [if_neg hT, if_neg (by decide : ¬ idTruthy none = true)]
  dsimp only
  simp only [format_email_data]
  rw [add_modules_spec store mods _ [] huniq]
  simp only [placeholderHeaders, placeholderEmailBody, bodyBlockOf, fmtExtraOf,
    format_email_data, basePromptRefOf]
  cases hfb : firstByPk (store.filter (fun t => t.is_base)) with
  | none => simp [List.append_assoc]
  | some bobj => simp [List.append_assoc]

/-- C8: for every selected-module id list (with at most one stored module
per id), the composition succeeds, modules that resolve to a non-empty
template are appended in the given order after the rest of the prompt,
unresolved ids are skipped silently, and the metadata records exactly the
appended modules in append order. -/
theorem build_prompt_modules (store : Store) (analysis : List AnalysisEntry)
    (mods : List Chars) (e0 : AnalysisEntry) (rest : List AnalysisEntry)
    (T : Chars)
    (han : analysis = e0 :: rest)
    (hb : get_base_prompt store none = Except.ok T) (hT : T ≠ [])
    (huniq : ∀ m ∈ mods,
      (store.filter (fun t => t.is_module && t.module_type == m)).length ≤ 1) :
    ∃ r p0, build_prompt store analysis mods none = Except.ok r
      ∧ r.metadata.modules = resolved_module_refs store mods
      ∧ r.prompt = p0 ++ modules_text store mods ++ reminderText :=
  ⟨_,
   strReplace (strReplace T placeholderHeaders (format_email_data analysis).headers)
       placeholderEmailBody (bodyBlockOf analysis)
     ++ spamHamContent (fmtExtraOf analysis),
   build_prompt_ok_shape store analysis mods e0 rest T han hb hT huniq,
   rfl, rfl⟩

/-- C8 witness: with module ids ["scoring", "missing-id"] where only
"scoring" resolves, exactly one module is recorded and its text appended. -/
theorem build_prompt_modules_witness :
    resolved_module_refs c8store c8mods
      = [{ id := 2, name := ("Scoring Module").data, mtype := ("scoring").data }]
    ∧ modules_text c8store c8mods = ("\n\nSCORING RULES").data
    ∧ ∃ r p0, build_prompt c8store [c8entry] c8mods none = Except.ok r
        ∧ r.metadata.modules = resolved_module_refs c8store c8mods
        ∧ r.prompt = p0 ++ modules_text c8store c8mods ++ reminderText :=
  ⟨by decide, by decide,
   build_prompt_modules c8store [c8entry] c8mods c8entry [] (("BASE").data)
     rfl (by decide) (by decide) (by decide)⟩

/-- C6 counterexample: with the base template "A{HEADERS}B{HEADERS}C" and a
sample with no headers (headers block "{}"), the composed prompt starts
with "A{}B{}C": both occurrences are substituted and no literal "{HEADERS}"
survives anywhere in the prompt, contradicting "replaced exactly once". -/
theorem placeholder_replace_all_counterexample :
    c6prompt.take 7 = ("A{}B{}C").data
    ∧ containsSub c6prompt (("{HEADERS}").data) = false := by
  decide

/-- C6 amended: placeholder substitution replaces every occurrence of each
placeholder (Python str.replace); in particular a base template with
exactly one occurrence of each placeholder has each replaced exactly once
with all surrounding literal text preserved byte-for-byte, and a template
containing neither placeholder is left unchanged aside from the appended
analysis, module and reminder blocks. -/
theorem placeholder_substitution (store : Store) (analysis : List AnalysisEntry)
    (mods : List Chars) (e0 : AnalysisEntry) (rest : List AnalysisEntry)
    (han : analysis = e0 :: rest)
    (huniq : ∀ m ∈ mods,
      (store.filter (fun t => t.is_module && t.module_type == m)).length ≤ 1) :
    (∀ X Y Z : Chars,
      get_base_prompt store none
          = Except.ok (X ++ placeholderHeaders ++ (Y ++ placeholderEmailBody ++ Z)) →
      containsSub (X ++ placeholderHeaders.dropLast) placeholderHeaders = false →
      containsSub (Y ++ placeholderEmailBody ++ Z) placeholderHeaders = false →
      containsSub ((X ++ headersBlockOf analysis ++ Y)
          ++ placeholderEmailBody.dropLast) placeholderEmailBody = false →
      containsSub Z placeholderEmailBody = false →
      ∃ r suffix, build_prompt store analysis mods none = Except.ok r
        ∧ r.prompt = X ++ headersBlockOf analysis ++ Y
            ++ bodyBlockOf analysis ++ Z ++ suffix)
    ∧ (∀ T : Chars, get_base_prompt store none = Except.ok T → T ≠ [] →
        containsSub T placeholderHeaders = false →
        containsSub T placeholderEmailBody = false →
        ∃ r suffix, build_prompt store analysis mods none = Except.ok r
          ∧ r.prompt = T ++ suffix) := by
  constructor
  · intro X Y Z hb h1 h2 h3 h4
    have hT : X ++ placeholderHeaders ++ (Y ++ placeholderEmailBody ++ Z) ≠ [] := by
      simp [placeholderHeaders]
    have hshape := build_prompt_ok_shape store analysis mods e0 rest _ han hb hT huniq
    refine ⟨_, spamHamContent (fmtExtraOf analysis) ++ modules_text store mods
      ++ reminderText, hshape, ?_⟩
    have hr1 : strReplace
        (X ++ placeholderHeaders ++ (Y ++ placeholderEmailBody ++ Z))
        placeholderHeaders (headersBlockOf analysis)
        = X ++ headersBlockOf analysis ++ (Y ++ placeholderEmailBody ++ Z) :=
      strReplace_at placeholderHeaders (headersBlockOf analysis) X
        (Y ++ placeholderEmailBody ++ Z) (by decide) h1 h2
    have hr2eq : X ++ headersBlockOf analysis ++ (Y ++ placeholderEmailBody ++ Z)
        = (X ++ headersBlockOf analysis ++ Y) ++ placeholderEmailBody ++ Z := by
      simp [List.append_assoc]
    have hr2 : strReplace
        ((X ++ headersBlockOf analysis ++ Y) ++ placeholderEmailBody ++ Z)
        placeholderEmailBody (bodyBlockOf analysis)
        = (X ++ headersBlockOf analysis ++ Y) ++ bodyBlockOf analysis ++ Z :=
      strReplace_at placeholderEmailBody (bodyBlockOf analysis)
        (X ++ headersBlockOf analysis ++ Y) Z (by decide) h3 h4
    simp only [headersBlockOf] at hr1 hr2eq hr2
    dsimp only
    rw [hr1, hr2eq, hr2]
    simp [List.append_assoc, headersBlockOf]
  · intro T hb hT h1 h2
    have hshape := build_prompt_ok_shape store analysis mods e0 rest T han hb hT huniq
    refine ⟨_, spamHamContent (fmtExtraOf analysis) ++ modules_text store mods
      ++ reminderText, hshape, ?_⟩
    dsimp only
    rw [strReplace_no_occ T placeholderHeaders _ h1,
      strReplace_no_occ T placeholderEmailBody _ h2]
    simp [List.append_assoc]

/-- C6 witness: the single-occurrence template "A {HEADERS} B {EMAIL_BODY} C"
on a headerless sample. -/
theorem placeholder_substitution_witness :
    ∃ r suffix, build_prompt c6wstore [c6entry] [] none = Except.ok r
      ∧ r.prompt = ("A ").data ++ headersBlockOf [c6entry] ++ (" B ").data
          ++ bodyBlockOf [c6entry] ++ (" C").data ++ suffix :=
  (placeholder_substitution c6wstore [c6entry] [] c6entry [] rfl (by simp)).1
    (("A ").data) ((" B ").data) ((" C").data)
    (by decide) (by decide) (by decide) (by decide) (by decide)
